import Mathlib

/-!
Verification development for the svtk repository.

The repository's `src` tree carries two files: `svtools/cli/annotate.py`,
the command-line entry point of the genic-effect annotator (whose module
docstring states the classification rules), and `svtk/pesr/pesr_test.py`,
the paired-end/split-read statistical enrichment test.  The classification
engine itself (`svtools.annotation`) is not part of the source tree, so the
classifier, aggregator and feature-index loader below are modelled from the
design specification; the PESR test and the CLI guard are shallow embeddings
of the Python source.

Conventions: genomic coordinates are natural numbers, intervals are
half-open `[start, end)`, read counts are natural numbers, medians are
rationals, and p-values live in the reals.
-/

/-! ## Interval algebra (spec §3, §4.3) -/

/-- Genomic half-open interval `[start, end)` on a chromosome. -/
structure GenomicInterval where
  chrom : String
  start : Nat
  «end» : Nat
deriving DecidableEq, Repr

/-- Nonempty intersection of two intervals ("overlaps"). -/
def overlaps (a b : GenomicInterval) : Bool :=
  a.chrom = b.chrom && a.start < b.«end» && b.start < a.«end»

/-- Interval `a` lies entirely within interval `b` ("entirely within"). -/
def containedIn (a b : GenomicInterval) : Bool :=
  a.chrom = b.chrom && b.start ≤ a.start && a.«end» ≤ b.«end»

/-- Interval `a` spans the entirety of interval `b` ("spans the entirety of"). -/
def spans (a b : GenomicInterval) : Bool :=
  containedIn b a

/-- Interval `a` strictly contains interval `b`: `a` spans `b` and is a proper
superset of it. -/
def strictlyContains (a b : GenomicInterval) : Bool :=
  spans a b && (a.start < b.start || b.«end» < a.«end»)

/-- A single coordinate lies inside a feature interval (half-open test,
"breakpoint falls within"). -/
def pointIn (i : GenomicInterval) (c : String) (p : Nat) : Bool :=
  c = i.chrom && i.start ≤ p && p < i.«end»

/-! ## Data model (spec §3) -/

/-- Gene model: identifier, boundary interval, ordered exon list,
transcription start site and strand (`true` = plus strand). -/
structure Gene where
  id : String
  interval : GenomicInterval
  exons : List GenomicInterval
  tss : Nat
  strand : Bool
deriving DecidableEq, Repr

/-- Noncoding element: interval plus an opaque class and name. -/
structure NoncodingElement where
  interval : GenomicInterval
  elemClass : String
  name : String
deriving DecidableEq, Repr

/-- Structural-variant type. -/
inductive SVType where
  | DEL
  | DUP
  | INV
  | BND
deriving DecidableEq, Repr

/-- ENUM of genic effect classes.  `DUP_PART` models the partial-duplication
class written DUP_PARTIAL in the design documents. -/
inductive EffectClass where
  | LOF
  | COPY_GAIN
  | INTRONIC
  | DUP_PART
  | INV_SPAN
  | NEAREST_TSS
  | NONE
deriving DecidableEq, Repr

/-- Structural variant: identifier, type, breakpoints `posA`/`posB` on
`chrom` (for BND, the second breakpoint lives on `chromB`). -/
structure StructuralVariant where
  id : String
  svtype : SVType
  chrom : String
  posA : Nat
  posB : Nat
  chromB : String
deriving DecidableEq, Repr

/-- Primary interval of a non-BND variant: `[posA, posB)` on `chrom`. -/
def primaryInterval (sv : StructuralVariant) : GenomicInterval :=
  ⟨sv.chrom, sv.posA, sv.posB⟩

/-- Feature index: genes and noncoding elements, read-only after
construction. -/
structure FeatureIndex where
  genes : List Gene
  noncoding : List NoncodingElement
deriving DecidableEq, Repr

/-- Gene-level or element-level annotation attached to one variant. -/
structure EffectAnn where
  sv_id : String
  effect : EffectClass
  gene_or_element_id : Option String
  elemClass : Option String
deriving DecidableEq, Repr

/-! ## Derived gene structure -/

/-- Gaps between consecutive intervals of a list (used for introns). -/
def gaps : List GenomicInterval → List GenomicInterval
  | e1 :: e2 :: rest => ⟨e1.chrom, e1.«end», e2.start⟩ :: gaps (e2 :: rest)
  | _ => []

/-- Introns of a gene: gaps between consecutive exons (spec §3). -/
def introns (g : Gene) : List GenomicInterval :=
  gaps g.exons

/-- Well-formed gene: nonempty boundary, every exon a nonempty interval on
the gene's chromosome and contained in the gene boundary (spec §3
invariants). -/
def geneWF (g : Gene) : Bool :=
  g.interval.start < g.interval.«end» &&
  g.exons.all (fun e =>
    e.chrom = g.interval.chrom && g.interval.start ≤ e.start &&
    e.start < e.«end» && e.«end» ≤ g.interval.«end»)

/-! ## Classification rules (spec §4.3) -/

/-- Loss-of-function test for inversions: entirely within an exon, or
exactly one breakpoint within an exon, or entirely within the gene boundary
while overlapping an exon, or exactly one breakpoint within the gene
boundary. -/
def invLof (sv : StructuralVariant) (g : Gene) : Bool :=
  let svi := primaryInterval sv
  g.exons.any (fun e => containedIn svi e) ||
  Bool.xor (g.exons.any (fun e => pointIn e sv.chrom sv.posA))
           (g.exons.any (fun e => pointIn e sv.chrom sv.posB)) ||
  (containedIn svi g.interval && g.exons.any (fun e => overlaps svi e)) ||
  Bool.xor (pointIn g.interval sv.chrom sv.posA)
           (pointIn g.interval sv.chrom sv.posB)

/-- Both breakpoints of a (same-chromosome) variant fall outside the gene
boundary. -/
def bpOutside (sv : StructuralVariant) (g : Gene) : Bool :=
  !pointIn g.interval sv.chrom sv.posA && !pointIn g.interval sv.chrom sv.posB

/-- Partial-duplication heuristic: the duplication overlaps the gene
boundary and covers its start edge or its end edge without spanning the
entire gene (spec §4.3's approximation; guarded below so that it applies
only when neither LOF nor COPY_GAIN holds). -/
def dupPartialCond (svi : GenomicInterval) (g : Gene) : Bool :=
  overlaps svi g.interval && !spans svi g.interval &&
  (pointIn svi g.interval.chrom g.interval.start ||
   (svi.start < g.interval.«end» && g.interval.«end» ≤ svi.«end»))

/-- Modelled from the spec: the per-(SV, gene) classification rules of the
missing `svtools.annotation` module, as laid out in the rule table of
spec §4.3 and the module docstring of `svtools/cli/annotate.py`.  The
if-chain realizes the precedence LOF > COPY_GAIN > DUP_PARTIAL > INV_SPAN >
INTRONIC; `NONE` means no rule fires for this gene. -/
def classifyGene (sv : StructuralVariant) (g : Gene) : EffectClass :=
  let svi := primaryInterval sv
  match sv.svtype with
  | SVType.DEL =>
    if g.exons.any (fun e => overlaps svi e) then EffectClass.LOF
    else if (introns g).any (fun i => containedIn svi i) then EffectClass.INTRONIC
    else EffectClass.NONE
  | SVType.DUP =>
    if containedIn svi g.interval && g.exons.any (fun e => overlaps svi e) then
      EffectClass.LOF
    else if spans svi g.interval then EffectClass.COPY_GAIN
    else if dupPartialCond svi g then EffectClass.DUP_PART
    else if (introns g).any (fun i => containedIn svi i) then EffectClass.INTRONIC
    else EffectClass.NONE
  | SVType.INV =>
    if invLof sv g then EffectClass.LOF
    else if bpOutside sv g && strictlyContains svi g.interval then
      EffectClass.INV_SPAN
    else if (introns g).any (fun i => containedIn svi i) then EffectClass.INTRONIC
    else EffectClass.NONE
  | SVType.BND =>
    if pointIn g.interval sv.chrom sv.posA ||
       pointIn g.interval sv.chromB sv.posB then EffectClass.LOF
    else EffectClass.NONE

/-! ## Sorting helper (deterministic output order, spec §4.4) -/

/-- Insert an element into a list ahead of the first element it compares
below, used by the insertion sort. -/
def insertSorted (le : α → α → Bool) (x : α) : List α → List α
  | [] => [x]
  | y :: ys => if le x y then x :: y :: ys else y :: insertSorted le x ys

/-- Insertion sort with respect to a boolean comparison. -/
def insertionSort (le : α → α → Bool) : List α → List α
  | [] => []
  | x :: xs => insertSorted le x (insertionSort le xs)

/-! ## Aggregator (spec §4.4) -/

/-- Modelled from the spec: the `nearest_tss` query of the missing Feature
Index module — among genes on the query chromosome, the gene whose TSS is
closest to the query position by absolute distance, ties broken by gene id
lexical order. -/
def nearest_tss (genes : List Gene) (c : String) (p : Nat) : Option Gene :=
  (genes.filter (fun g => g.interval.chrom = c)).foldl
    (fun best h =>
      match best with
      | none => some h
      | some b =>
        let dh := max h.tss p - min h.tss p
        let db := max b.tss p - min b.tss p
        if dh < db || (dh = db && h.id < b.id) then some h else some b)
    none

/-- Modelled from the spec: the annotation aggregator of the missing
`svtools.annotation` module (spec §4.4).  One entry per gene the variant
touches, sorted by gene id; a NEAREST_TSS fallback when no gene rule fires
yet the variant is intragenic; then one entry per overlapped noncoding
element, sorted by element name. -/
def annotate (sv : StructuralVariant) (idx : FeatureIndex) : List EffectAnn :=
  let svi := primaryInterval sv
  let touched := idx.genes.filter (fun g => decide (classifyGene sv g ≠ EffectClass.NONE))
  let sortedGenes := insertionSort (fun a b => decide (a.id ≤ b.id)) touched
  let geneAnns := sortedGenes.map
    (fun g => EffectAnn.mk sv.id (classifyGene sv g) (some g.id) none)
  let fallback :=
    if geneAnns.isEmpty && idx.genes.any (fun h => containedIn svi h.interval) then
      match nearest_tss idx.genes sv.chrom sv.posA with
      | some h => [EffectAnn.mk sv.id EffectClass.NEAREST_TSS (some h.id) none]
      | none => []
    else []
  let ncTouched := idx.noncoding.filter (fun e => overlaps svi e.interval)
  let ncSorted := insertionSort (fun a b => decide (a.name ≤ b.name)) ncTouched
  let ncAnns := ncSorted.map
    (fun e => EffectAnn.mk sv.id EffectClass.NONE (some e.name) (some e.elemClass))
  geneAnns ++ fallback ++ ncAnns

/-! ## Feature-index loader (spec §4.1) -/

/-- Error raised for a reference feature whose interval is malformed. -/
inductive LoadError where
  | MalformedFeature (chrom : String) (lo hi : Nat)
deriving DecidableEq, Repr

/-- A half-open interval is well formed when `start < end`. -/
def wfInterval (i : GenomicInterval) : Bool :=
  i.start < i.«end»

/-- Modelled from the spec: the loader of the missing Feature Index module
(spec §4.1, §7) — a feature with `end <= start` raises `MalformedFeature`;
the offending record is skipped and logged and the load continues, so the
result is always an index over the well-formed records together with the
list of logged errors. -/
def buildIndex (genes : List Gene) (nc : List NoncodingElement) :
    FeatureIndex × List LoadError :=
  let keptG := genes.filter (fun g => wfInterval g.interval)
  let errG := (genes.filter (fun g => !wfInterval g.interval)).map
    (fun g => LoadError.MalformedFeature g.interval.chrom g.interval.start g.interval.«end»)
  let keptN := nc.filter (fun e => wfInterval e.interval)
  let errN := (nc.filter (fun e => !wfInterval e.interval)).map
    (fun e => LoadError.MalformedFeature e.interval.chrom e.interval.start e.interval.«end»)
  (FeatureIndex.mk keptG keptN, errG ++ errN)

/-! ## PESR enrichment test (src/svtk/pesr/pesr_test.py) -/

/-- Count assigned to a sample by a table: the count of its first row, or 0
when the sample is absent, modelling
`set_index('sample')['count'].reindex(samples + background).fillna(0)`. -/
def lookupCount (counts : List (String × Nat)) (s : String) : Nat :=
  match counts.find? (fun r => decide (r.1 = s)) with
  | some r => r.2
  | none => 0

/-- Median of a list of rationals the way pandas computes it: sort, take
the middle element for odd length or the mean of the two middle elements
for even length.  The empty case yields 0, matching the
`reindex([True, False]).fillna(0)` step that fills an absent group. -/
def median (l : List ℚ) : ℚ :=
  let s := insertionSort (fun a b => decide (a ≤ b)) l
  if l.length = 0 then 0
  else if l.length % 2 = 1 then s.getD (l.length / 2) 0
  else (s.getD (l.length / 2 - 1) 0 + s.getD (l.length / 2) 0) / 2

/-- Result triple of `PESRTest.test`, a series indexed by
`background`, `called` and `log_pval`. -/
structure TestResult where
  background : ℚ
  called : ℚ
  logPval : ℝ

/-- Null score returned when no eligible clipped reads are present
(`PESRTest.null_score` with its default `null_val=0.0`). -/
noncomputable def null_score : TestResult :=
  ⟨0, 0, 0⟩

/-- Poisson cumulative distribution function evaluated as
`scipy.stats.poisson.cdf(k, mu)` does: the probability mass summed up to
the floor of `k`, zero below zero. -/
noncomputable def poissonCdf (k : ℚ) (mu : ℚ) : ℝ :=
  if k < 0 then 0
  else ∑ i ∈ Finset.range (⌊k⌋.toNat + 1),
    Real.exp (-(mu : ℝ)) * (mu : ℝ) ^ i / (Nat.factorial i)

/-- Shallow embedding of `PESRTest.test`: restrict the count table to
called or background samples; return the null score when nothing remains;
otherwise give every listed sample a count (0 when unobserved), split the
rows by called status, take each group's median, and report the Poisson
p-value of the background median at rate the called median as an absolute
base-10 logarithm. -/
noncomputable def PESRTest_test (counts : List (String × Nat))
    (samples background : List String) : TestResult :=
  let restricted := counts.filter (fun r => decide (r.1 ∈ samples ++ background))
  if restricted = [] then null_score
  else
    let reidx := (samples ++ background).map (fun s => (s, lookupCount restricted s))
    let calledCounts := (reidx.filter (fun r => decide (r.1 ∈ samples))).map
      (fun r => (r.2 : ℚ))
    let bgCounts := (reidx.filter (fun r => decide (r.1 ∉ samples))).map
      (fun r => (r.2 : ℚ))
    let calledMed := median calledCounts
    let bgMed := median bgCounts
    ⟨bgMed, calledMed, |Real.logb 10 (poissonCdf bgMed calledMed)|⟩

/-- State of a `PESRTestRunner` after `__init__`: the sample list of the
VCF header, the background size, and the effective whitelist and
blacklist. -/
structure PESRTestRunner where
  samples : List String
  n_background : Nat
  whitelist : List String
  blacklist : List String
deriving Repr

/-- Default background size in `PESRTestRunner.__init__`. -/
def default_n_background : Nat := 160

/-- Shallow embedding of `PESRTestRunner.__init__`: a falsy whitelist
argument (absent or empty) defaults to the full sample list, a falsy
blacklist argument to the empty list. -/
def mkRunner (vcfSamples : List String) (n : Nat)
    (wl bl : Option (List String)) : PESRTestRunner :=
  ⟨vcfSamples, n,
    (match wl with
     | some w => if w = [] then vcfSamples else w
     | none => vcfSamples),
    (match bl with
     | some b => if b = [] then [] else b
     | none => [])⟩

/-- Shallow embedding of `PESRTestRunner.choose_background`.  The called
samples of the record arrive as `called0`, the value of
`svu.get_called_samples(record)`; `pick` stands for
`np.random.choice(replace=False)`, drawing a requested number of elements
from a list.  Override arguments of `none` fall back to the runner's
whitelist and blacklist, exactly as the `if whitelist is not None` guard
does. -/
def choose_background (r : PESRTestRunner) (called0 : List String)
    (pick : List String → Nat → List String)
    (wlO blO : Option (List String)) : List String × List String :=
  let called := called0
  let background := r.samples.filter (fun s => decide (s ∉ called0))
  let wl := wlO.getD r.whitelist
  let bl := blO.getD r.blacklist
  let called := called.filter (fun s => decide (s ∈ wl))
  let background := background.filter (fun s => decide (s ∈ wl))
  let called := called.filter (fun s => decide (s ∉ bl))
  let background := background.filter (fun s => decide (s ∉ bl))
  let background :=
    if r.n_background ≤ background.length then pick background r.n_background
    else background
  (called, background)

/-! ## CLI guard (src/svtools/cli/annotate.py) -/

/-- Observable outcome of one invocation of the annotate CLI `main`. -/
structure MainOutcome where
  errorPrinted : Bool
  helpPrinted : Bool
  exitCode : Option Nat
  vcfOpened : Bool
  annotated : Bool
deriving DecidableEq, Repr

/-- Shallow embedding of `main` in `svtools/cli/annotate.py`: an empty
argument vector prints the help text and exits 1; otherwise, when neither
`--gencode` nor `--noncoding` was supplied, an error message and the help
text are printed and the process exits with status 1 before the input VCF
is opened; otherwise the VCF is opened and annotation runs. -/
def annotate_main (argvEmpty : Bool) (gencode noncoding : Option String) :
    MainOutcome :=
  if argvEmpty then ⟨false, true, some 1, false, false⟩
  else if gencode = none ∧ noncoding = none then ⟨true, true, some 1, false, false⟩
  else ⟨false, false, none, true, true⟩

/-! ## Helper lemmas -/

theorem mem_insertSorted {α : Type} {le : α → α → Bool} {x a : α} {l : List α} :
    a ∈ insertSorted le x l ↔ a = x ∨ a ∈ l := by
  induction l with
  | nil => simp [insertSorted]
  | cons y ys ih =>
    unfold insertSorted
    cases h : le x y with
    | true => simp
    | false =>
      simp [ih]
      tauto

theorem mem_insertionSort {α : Type} {le : α → α → Bool} {a : α} {l : List α} :
    a ∈ insertionSort le l ↔ a ∈ l := by
  induction l with
  | nil => simp [insertionSort]
  | cons y ys ih =>
    unfold insertionSort
    rw [mem_insertSorted]
    simp [ih]

/-! ## Claims about the CLI guard and determinism -/

/-- C10: when neither a gencode annotation file nor a noncoding element
file is supplied on a nonempty command line, `main` prints an error message
and the help text and exits with status 1 without opening the input VCF or
producing any annotation. -/
theorem annotate_main_no_sources :
    annotate_main false none none =
      MainOutcome.mk true true (some 1) false false := rfl

/-- C5: classification is deterministic — two runs of `annotate` on the
same structural variant and feature index produce identical ordered
annotation sequences. -/
theorem annotate_deterministic (sv : StructuralVariant) (idx : FeatureIndex) :
    annotate sv idx = annotate sv idx := rfl

/-! ## Claims about the PESR test -/

/-- C8: when restricting the count table to the union of the called and
background sample lists leaves no rows, `PESRTest.test` returns the null
score, the series assigning 0.0 to each of `background`, `called` and
`log_pval`, instead of computing medians or a p-value. -/
theorem pesr_test_null (counts : List (String × Nat))
    (samples background : List String)
    (h : counts.filter (fun r => decide (r.1 ∈ samples ++ background)) = []) :
    PESRTest_test counts samples background = null_score ∧
    null_score.background = 0 ∧ null_score.called = 0 ∧
    null_score.logPval = 0 := by
  refine ⟨?_, rfl, rfl, rfl⟩
  simp only [PESRTest_test]
  split
  · rfl
  · rename_i hcond
    exact absurd h hcond

/-- Witness for C8 at a concrete table whose only sample is neither called
nor background. -/
theorem pesr_test_null_witness :
    PESRTest_test [("x", 5)] ["a"] ["b"] = null_score ∧
    null_score.background = 0 ∧ null_score.called = 0 ∧
    null_score.logPval = 0 :=
  pesr_test_null [("x", 5)] ["a"] ["b"] (by decide)

/-! ## Claim about the feature-index loader -/

/-- C6: a reference feature with a malformed interval (`end <= start`)
yields a logged `MalformedFeature` error, the offending record is skipped,
and the load continues — the resulting index is the index built without
the offending record, so the error is not fatal to index construction. -/
theorem buildIndex_malformed (pre post : List Gene) (nc : List NoncodingElement)
    (g : Gene) (h : wfInterval g.interval = false) :
    (buildIndex (pre ++ g :: post) nc).1 = (buildIndex (pre ++ post) nc).1 ∧
    LoadError.MalformedFeature g.interval.chrom g.interval.start g.interval.«end»
      ∈ (buildIndex (pre ++ g :: post) nc).2 := by
  constructor
  · unfold buildIndex
    simp [List.filter_append, List.filter_cons, h]
  · unfold buildIndex
    simp [List.filter_append, List.filter_cons, h]

/-- Witness for C6 at a concrete malformed gene record. -/
theorem buildIndex_malformed_witness :
    (buildIndex ([] ++ (Gene.mk "g1" ⟨"chr1", 5, 5⟩ [] 5 true) :: []) []).1 =
      (buildIndex ([] ++ []) []).1 ∧
    LoadError.MalformedFeature "chr1" 5 5
      ∈ (buildIndex ([] ++ (Gene.mk "g1" ⟨"chr1", 5, 5⟩ [] 5 true) :: []) []).2 :=
  buildIndex_malformed [] [] [] (Gene.mk "g1" ⟨"chr1", 5, 5⟩ [] 5 true) (by decide)

/-! ## Membership structure of the aggregator output -/

theorem classifyGene_mem_annotate (sv : StructuralVariant) (idx : FeatureIndex)
    (g : Gene) (hg : g ∈ idx.genes) (hc : classifyGene sv g ≠ EffectClass.NONE) :
    EffectAnn.mk sv.id (classifyGene sv g) (some g.id) none ∈ annotate sv idx := by
  unfold annotate
  simp only [List.mem_append]
  left
  left
  refine List.mem_map.mpr ⟨g, ?_, rfl⟩
  rw [mem_insertionSort]
  exact List.mem_filter.mpr ⟨hg, decide_eq_true hc⟩

theorem annotate_mem_cases (sv : StructuralVariant) (idx : FeatureIndex)
    (a : EffectAnn) (ha : a ∈ annotate sv idx) :
    (∃ h ∈ idx.genes, classifyGene sv h ≠ EffectClass.NONE ∧
      a = EffectAnn.mk sv.id (classifyGene sv h) (some h.id) none) ∨
    a.effect = EffectClass.NEAREST_TSS ∨ a.effect = EffectClass.NONE := by
  unfold annotate at ha
  simp only [List.mem_append] at ha
  rcases ha with (ha | ha) | ha
  · rcases List.mem_map.mp ha with ⟨h, hh, rfl⟩
    rw [mem_insertionSort] at hh
    rcases List.mem_filter.mp hh with ⟨hmem, hne⟩
    exact Or.inl ⟨h, hmem, of_decide_eq_true hne, rfl⟩
  · right
    split at ha
    · split at ha
      · rcases List.mem_singleton.mp ha with rfl
        exact Or.inl rfl
      · exact absurd ha (List.not_mem_nil a)
    · exact absurd ha (List.not_mem_nil a)
  · right
    right
    rcases List.mem_map.mp ha with ⟨e, he, rfl⟩
    rfl

/-! ## Claim C1: deletions overlapping an exon -/

/-- C1: a deletion whose primary interval has a nonempty intersection with
an exon of a gene in the feature index receives an LOF annotation for that
gene from classification. -/
theorem del_exon_lof (sv : StructuralVariant) (idx : FeatureIndex) (g : Gene)
    (e : GenomicInterval) (hty : sv.svtype = SVType.DEL) (hg : g ∈ idx.genes)
    (he : e ∈ g.exons) (hov : overlaps (primaryInterval sv) e = true) :
    ∃ a ∈ annotate sv idx, a.effect = EffectClass.LOF ∧
      a.gene_or_element_id = some g.id := by
  have hany : g.exons.any (fun e2 => overlaps (primaryInterval sv) e2) = true :=
    List.any_eq_true.mpr ⟨e, he, hov⟩
  have hc : classifyGene sv g = EffectClass.LOF := by
    simp only [classifyGene, hty]
    simp [hany]
  refine ⟨EffectAnn.mk sv.id (classifyGene sv g) (some g.id) none,
    classifyGene_mem_annotate sv idx g hg (by rw [hc]; simp), ?_⟩
  simp [hc]

/-- Witness for C1: the concrete scenario of spec §8 — gene G on
chr1:[1000,5000) with three exons, and a deletion at chr1:[3050,3150)
overlapping the middle exon. -/
theorem del_exon_lof_witness :
    ∃ a ∈ annotate (StructuralVariant.mk "sv1" SVType.DEL "chr1" 3050 3150 "chr1")
        (FeatureIndex.mk
          [Gene.mk "G" ⟨"chr1", 1000, 5000⟩
            [⟨"chr1", 1000, 1200⟩, ⟨"chr1", 3000, 3200⟩, ⟨"chr1", 4800, 5000⟩]
            1000 true] []),
      a.effect = EffectClass.LOF ∧ a.gene_or_element_id = some "G" :=
  del_exon_lof (StructuralVariant.mk "sv1" SVType.DEL "chr1" 3050 3150 "chr1")
    (FeatureIndex.mk
      [Gene.mk "G" ⟨"chr1", 1000, 5000⟩
        [⟨"chr1", 1000, 1200⟩, ⟨"chr1", 3000, 3200⟩, ⟨"chr1", 4800, 5000⟩]
        1000 true] [])
    (Gene.mk "G" ⟨"chr1", 1000, 5000⟩
      [⟨"chr1", 1000, 1200⟩, ⟨"chr1", 3000, 3200⟩, ⟨"chr1", 4800, 5000⟩]
      1000 true)
    ⟨"chr1", 3000, 3200⟩ rfl (by decide) (by decide) (by decide)

/-! ## Claim C4: half-open adjacency -/

theorem gaps_start_mem :
    ∀ (l : List GenomicInterval), ∀ i ∈ gaps l, ∃ e ∈ l, i.start = e.«end»
  | [], i, hi => by simp [gaps] at hi
  | [e], i, hi => by simp [gaps] at hi
  | e1 :: e2 :: rest, i, hi => by
    simp only [gaps, List.mem_cons] at hi
    rcases hi with rfl | hi
    · exact ⟨e1, List.mem_cons_self e1 _, rfl⟩
    · rcases gaps_start_mem (e2 :: rest) i hi with ⟨e, he, heq⟩
      exact ⟨e, List.mem_cons_of_mem _ he, heq⟩

/-- C4: intervals are half-open — a deletion whose primary interval ends
exactly at a gene's start coordinate is adjacent but not overlapping, so
classification assigns that gene no class and an index holding just that
gene produces no annotation at all. -/
theorem del_adjacent_no_annotation (sv : StructuralVariant) (g : Gene)
    (hty : sv.svtype = SVType.DEL) (hwf : geneWF g = true)
    (hab : sv.posA < sv.posB) (hadj : sv.posB = g.interval.start) :
    classifyGene sv g = EffectClass.NONE ∧
    annotate sv (FeatureIndex.mk [g] []) = [] := by
  simp only [geneWF, Bool.and_eq_true, List.all_eq_true, decide_eq_true_eq] at hwf
  obtain ⟨hgne, hall⟩ := hwf
  have hexon' : g.exons.any (fun e => overlaps (primaryInterval sv) e) = false := by
    rw [Bool.eq_false_iff]
    intro hany
    rcases List.any_eq_true.mp hany with ⟨e, he, hov⟩
    obtain ⟨⟨⟨-, hstart⟩, -⟩, -⟩ := hall e he
    simp only [overlaps, primaryInterval, Bool.and_eq_true, decide_eq_true_eq] at hov
    omega
  have hintr' : (introns g).any (fun i => containedIn (primaryInterval sv) i) = false := by
    rw [Bool.eq_false_iff]
    intro hany
    rcases List.any_eq_true.mp hany with ⟨i, hi, hcon⟩
    rcases gaps_start_mem g.exons i hi with ⟨e, he, heq⟩
    obtain ⟨⟨⟨-, hstart⟩, hlen⟩, -⟩ := hall e he
    simp only [containedIn, primaryInterval, Bool.and_eq_true, decide_eq_true_eq] at hcon
    omega
  have hc : classifyGene sv g = EffectClass.NONE := by
    simp only [classifyGene, hty]
    simp [hexon', hintr']
  have hin : containedIn (primaryInterval sv) g.interval = false := by
    rw [Bool.eq_false_iff]
    intro hcon
    simp only [containedIn, primaryInterval, Bool.and_eq_true, decide_eq_true_eq] at hcon
    omega
  refine ⟨hc, ?_⟩
  unfold annotate
  simp [hc, hin, insertionSort]

/-- Witness for C4: a deletion at chr1:[900,1000) adjacent to a gene
starting at 1000. -/
theorem del_adjacent_no_annotation_witness :
    classifyGene (StructuralVariant.mk "sv2" SVType.DEL "chr1" 900 1000 "chr1")
        (Gene.mk "G" ⟨"chr1", 1000, 5000⟩
          [⟨"chr1", 1000, 1200⟩, ⟨"chr1", 3000, 3200⟩, ⟨"chr1", 4800, 5000⟩]
          1000 true) = EffectClass.NONE ∧
    annotate (StructuralVariant.mk "sv2" SVType.DEL "chr1" 900 1000 "chr1")
        (FeatureIndex.mk
          [Gene.mk "G" ⟨"chr1", 1000, 5000⟩
            [⟨"chr1", 1000, 1200⟩, ⟨"chr1", 3000, 3200⟩, ⟨"chr1", 4800, 5000⟩]
            1000 true] []) = [] :=
  del_adjacent_no_annotation
    (StructuralVariant.mk "sv2" SVType.DEL "chr1" 900 1000 "chr1")
    (Gene.mk "G" ⟨"chr1", 1000, 5000⟩
      [⟨"chr1", 1000, 1200⟩, ⟨"chr1", 3000, 3200⟩, ⟨"chr1", 4800, 5000⟩]
      1000 true)
    rfl (by decide) (by decide) rfl

/-! ## Claim C2: duplications strictly containing a gene -/

/-- C2: a duplication whose primary interval strictly contains a gene's
boundary interval receives COPY_GAIN for that gene and never the
partial-duplication class for it. -/
theorem dup_strict_containment_copy_gain (sv : StructuralVariant)
    (idx : FeatureIndex) (g : Gene) (hty : sv.svtype = SVType.DUP)
    (hg : g ∈ idx.genes) (hids : (idx.genes.map Gene.id).Nodup)
    (hsc : strictlyContains (primaryInterval sv) g.interval = true) :
    (∃ a ∈ annotate sv idx, a.effect = EffectClass.COPY_GAIN ∧
      a.gene_or_element_id = some g.id) ∧
    ∀ a ∈ annotate sv idx, a.gene_or_element_id = some g.id →
      a.effect ≠ EffectClass.DUP_PART := by
  have hsc' := hsc
  simp only [strictlyContains, spans, containedIn, primaryInterval,
    Bool.and_eq_true, Bool.or_eq_true, decide_eq_true_eq] at hsc'
  obtain ⟨⟨⟨hchr, hsle⟩, hele⟩, hstrict⟩ := hsc'
  have hnotin : containedIn (primaryInterval sv) g.interval = false := by
    rw [Bool.eq_false_iff]
    intro hcon
    simp only [containedIn, primaryInterval, Bool.and_eq_true,
      decide_eq_true_eq] at hcon
    omega
  have hspans : spans (primaryInterval sv) g.interval = true := by
    simp only [strictlyContains, Bool.and_eq_true] at hsc
    exact hsc.1
  have hc : classifyGene sv g = EffectClass.COPY_GAIN := by
    simp only [classifyGene, hty]
    simp [hnotin, hspans]
  refine ⟨⟨EffectAnn.mk sv.id (classifyGene sv g) (some g.id) none,
    classifyGene_mem_annotate sv idx g hg (by rw [hc]; simp), by simp [hc]⟩, ?_⟩
  intro a ha hid
  rcases annotate_mem_cases sv idx a ha with ⟨h, hh, hne, rfl⟩ | hcase | hcase
  · have hidg : h.id = g.id := by simpa using hid
    have hhg : h = g := List.inj_on_of_nodup_map hids hh hg hidg
    subst hhg
    simp [hc]
  · simp [hcase]
  · simp [hcase]

/-- Witness for C2: the spec §8 scenario — a duplication at
chr1:[500,6000) strictly containing gene G on chr1:[1000,5000). -/
theorem dup_strict_containment_copy_gain_witness :
    (∃ a ∈ annotate (StructuralVariant.mk "sv3" SVType.DUP "chr1" 500 6000 "chr1")
        (FeatureIndex.mk
          [Gene.mk "G" ⟨"chr1", 1000, 5000⟩
            [⟨"chr1", 1000, 1200⟩, ⟨"chr1", 3000, 3200⟩, ⟨"chr1", 4800, 5000⟩]
            1000 true] []),
      a.effect = EffectClass.COPY_GAIN ∧ a.gene_or_element_id = some "G") ∧
    ∀ a ∈ annotate (StructuralVariant.mk "sv3" SVType.DUP "chr1" 500 6000 "chr1")
        (FeatureIndex.mk
          [Gene.mk "G" ⟨"chr1", 1000, 5000⟩
            [⟨"chr1", 1000, 1200⟩, ⟨"chr1", 3000, 3200⟩, ⟨"chr1", 4800, 5000⟩]
            1000 true] []),
      a.gene_or_element_id = some "G" → a.effect ≠ EffectClass.DUP_PART :=
  dup_strict_containment_copy_gain
    (StructuralVariant.mk "sv3" SVType.DUP "chr1" 500 6000 "chr1")
    (FeatureIndex.mk
      [Gene.mk "G" ⟨"chr1", 1000, 5000⟩
        [⟨"chr1", 1000, 1200⟩, ⟨"chr1", 3000, 3200⟩, ⟨"chr1", 4800, 5000⟩]
        1000 true] [])
    (Gene.mk "G" ⟨"chr1", 1000, 5000⟩
      [⟨"chr1", 1000, 1200⟩, ⟨"chr1", 3000, 3200⟩, ⟨"chr1", 4800, 5000⟩]
      1000 true)
    rfl (by decide) (by decide) (by decide)

/-! ## Claim C3: inversions spanning a gene without disrupting it -/

/-- C3: an inversion whose two breakpoints fall outside every gene of the
index and whose primary interval strictly contains a gene's boundary
receives an INV_SPAN annotation for that gene. -/
theorem inv_span_annotation (sv : StructuralVariant) (idx : FeatureIndex)
    (g : Gene) (hty : sv.svtype = SVType.INV) (hg : g ∈ idx.genes)
    (hwf : geneWF g = true)
    (hout : ∀ h ∈ idx.genes, bpOutside sv h = true)
    (hsc : strictlyContains (primaryInterval sv) g.interval = true) :
    ∃ a ∈ annotate sv idx, a.effect = EffectClass.INV_SPAN ∧
      a.gene_or_element_id = some g.id := by
  have houtg := hout g hg
  simp only [bpOutside, Bool.and_eq_true, Bool.not_eq_true'] at houtg
  obtain ⟨hA, hB⟩ := houtg
  simp only [geneWF, Bool.and_eq_true, List.all_eq_true, decide_eq_true_eq] at hwf
  obtain ⟨hgne, hall⟩ := hwf
  have hsc' := hsc
  simp only [strictlyContains, spans, containedIn, primaryInterval,
    Bool.and_eq_true, Bool.or_eq_true, decide_eq_true_eq] at hsc'
  obtain ⟨⟨⟨hchr, hsle⟩, hele⟩, hstrict⟩ := hsc'
  have hAlt : sv.posA < g.interval.start := by
    rcases Nat.lt_or_ge sv.posA g.interval.start with h | h
    · exact h
    · exfalso
      have htrue : pointIn g.interval sv.chrom sv.posA = true := by
        simp only [pointIn, Bool.and_eq_true, decide_eq_true_eq]
        exact ⟨⟨hchr.symm, by omega⟩, by omega⟩
      simp [hA] at htrue
  have hconAny : g.exons.any (fun e => containedIn (primaryInterval sv) e) = false := by
    rw [Bool.eq_false_iff]
    intro h
    rcases List.any_eq_true.mp h with ⟨e, he, hce⟩
    obtain ⟨⟨⟨-, hs⟩, -⟩, -⟩ := hall e he
    simp only [containedIn, primaryInterval, Bool.and_eq_true, decide_eq_true_eq] at hce
    omega
  have hexA : g.exons.any (fun e => pointIn e sv.chrom sv.posA) = false := by
    rw [Bool.eq_false_iff]
    intro h
    rcases List.any_eq_true.mp h with ⟨e, he, hpe⟩
    obtain ⟨⟨⟨-, hs⟩, -⟩, -⟩ := hall e he
    simp only [pointIn, Bool.and_eq_true, decide_eq_true_eq] at hpe
    omega
  have hexB : g.exons.any (fun e => pointIn e sv.chrom sv.posB) = false := by
    rw [Bool.eq_false_iff]
    intro h
    rcases List.any_eq_true.mp h with ⟨e, he, hpe⟩
    obtain ⟨⟨⟨-, -⟩, -⟩, hend⟩ := hall e he
    simp only [pointIn, Bool.and_eq_true, decide_eq_true_eq] at hpe
    omega
  have hconG : containedIn (primaryInterval sv) g.interval = false := by
    rw [Bool.eq_false_iff]
    intro hcon
    simp only [containedIn, primaryInterval, Bool.and_eq_true, decide_eq_true_eq] at hcon
    omega
  have hinv : invLof sv g = false := by
    simp only [invLof]
    rw [hconAny, hexA, hexB, hconG, hA, hB]
    rfl
  have hc : classifyGene sv g = EffectClass.INV_SPAN := by
    simp only [classifyGene, hty]
    simp [hinv, hout g hg, hsc]
  exact ⟨EffectAnn.mk sv.id (classifyGene sv g) (some g.id) none,
    classifyGene_mem_annotate sv idx g hg (by rw [hc]; simp), by simp [hc]⟩

/-- Witness for C3: an inversion at chr1:[500,6000) whose breakpoints lie
outside gene G on chr1:[1000,5000) while its interval strictly contains
G's boundary. -/
theorem inv_span_annotation_witness :
    ∃ a ∈ annotate (StructuralVariant.mk "sv4" SVType.INV "chr1" 500 6000 "chr1")
        (FeatureIndex.mk
          [Gene.mk "G" ⟨"chr1", 1000, 5000⟩
            [⟨"chr1", 1000, 1200⟩, ⟨"chr1", 3000, 3200⟩, ⟨"chr1", 4800, 5000⟩]
            1000 true] []),
      a.effect = EffectClass.INV_SPAN ∧ a.gene_or_element_id = some "G" :=
  inv_span_annotation
    (StructuralVariant.mk "sv4" SVType.INV "chr1" 500 6000 "chr1")
    (FeatureIndex.mk
      [Gene.mk "G" ⟨"chr1", 1000, 5000⟩
        [⟨"chr1", 1000, 1200⟩, ⟨"chr1", 3000, 3200⟩, ⟨"chr1", 4800, 5000⟩]
        1000 true] [])
    (Gene.mk "G" ⟨"chr1", 1000, 5000⟩
      [⟨"chr1", 1000, 1200⟩, ⟨"chr1", 3000, 3200⟩, ⟨"chr1", 4800, 5000⟩]
      1000 true)
    rfl (by decide) (by decide) (by decide) (by decide)

/-! ## Claim C9: background selection invariants -/

theorem take_pick_spec (l : List String) (n : Nat) (h : n ≤ l.length) :
    ((l.take n).length = n ∧ (∀ x ∈ l.take n, x ∈ l) ∧
      (l.Nodup → (l.take n).Nodup)) := by
  refine ⟨by rw [List.length_take]; exact Nat.min_eq_left h, ?_, ?_⟩
  · intro x hx
    exact (List.take_subset n l) hx
  · intro hnd
    exact List.Nodup.sublist (List.take_sublist n l) hnd

/-- C9: `choose_background` returns called and background lists with no
sample in both, every returned sample inside the effective whitelist and
outside the effective blacklist, and a background of at most
`n_background` samples (160 by default) without duplicates.  The abstract
`pick` models `np.random.choice(replace=False)`: it returns the requested
number of elements, all drawn from its input, preserving distinctness. -/
theorem choose_background_invariants (r : PESRTestRunner) (called0 : List String)
    (pick : List String → Nat → List String)
    (hpick : ∀ l n, n ≤ l.length → ((pick l n).length = n ∧
      (∀ x ∈ pick l n, x ∈ l) ∧ (l.Nodup → (pick l n).Nodup)))
    (hnd : r.samples.Nodup) :
    (∀ s ∈ (choose_background r called0 pick none none).1,
      s ∉ (choose_background r called0 pick none none).2) ∧
    (∀ s ∈ (choose_background r called0 pick none none).1,
      s ∈ r.whitelist ∧ s ∉ r.blacklist) ∧
    (∀ s ∈ (choose_background r called0 pick none none).2,
      s ∈ r.whitelist ∧ s ∉ r.blacklist) ∧
    (choose_background r called0 pick none none).2.length ≤ r.n_background ∧
    (choose_background r called0 pick none none).2.Nodup ∧
    default_n_background = 160 := by
  simp only [choose_background, Option.getD_none]
  set bg0 := ((r.samples.filter (fun s => decide (s ∉ called0))).filter
    (fun s => decide (s ∈ r.whitelist))).filter
      (fun s => decide (s ∉ r.blacklist)) with hbg0
  have hbgsub : ∀ s ∈ bg0, s ∈ r.samples ∧ s ∉ called0 ∧
      s ∈ r.whitelist ∧ s ∉ r.blacklist := by
    intro s hs
    rw [hbg0] at hs
    simp only [List.mem_filter, decide_eq_true_eq] at hs
    exact ⟨hs.1.1.1, hs.1.1.2, hs.1.2, hs.2⟩
  have hbg0nd : bg0.Nodup := ((hnd.filter _).filter _).filter _
  have hbgFin : ∀ s ∈ (if r.n_background ≤ bg0.length then
      pick bg0 r.n_background else bg0), s ∈ bg0 := by
    split
    · rename_i hif
      exact (hpick bg0 r.n_background hif).2.1
    · intro s hs
      exact hs
  have hbgLen : (if r.n_background ≤ bg0.length then
      pick bg0 r.n_background else bg0).length ≤ r.n_background := by
    split
    · rename_i hif
      rw [(hpick bg0 r.n_background hif).1]
    · rename_i hif
      omega
  have hbgNd : (if r.n_background ≤ bg0.length then
      pick bg0 r.n_background else bg0).Nodup := by
    split
    · rename_i hif
      exact (hpick bg0 r.n_background hif).2.2 hbg0nd
    · exact hbg0nd
  refine ⟨?_, ?_, ?_, hbgLen, hbgNd, rfl⟩
  · intro s hs hmem
    have h1 : s ∈ called0 := by
      simp only [List.mem_filter, decide_eq_true_eq] at hs
      exact hs.1.1
    exact (hbgsub s (hbgFin s hmem)).2.1 h1
  · intro s hs
    simp only [List.mem_filter, decide_eq_true_eq] at hs
    exact ⟨hs.1.2, hs.2⟩
  · intro s hs
    have h := hbgsub s (hbgFin s hs)
    exact ⟨h.2.2.1, h.2.2.2⟩

/-- Witness for C9: a runner over three samples with background size 2,
one called sample, and a take-based stand-in for the random choice. -/
theorem choose_background_invariants_witness :
    (∀ s ∈ (choose_background (mkRunner ["s1", "s2", "s3"] 2 none none) ["s1"]
      (fun l n => l.take n) none none).1,
      s ∉ (choose_background (mkRunner ["s1", "s2", "s3"] 2 none none) ["s1"]
        (fun l n => l.take n) none none).2) ∧
    (∀ s ∈ (choose_background (mkRunner ["s1", "s2", "s3"] 2 none none) ["s1"]
      (fun l n => l.take n) none none).1,
      s ∈ (mkRunner ["s1", "s2", "s3"] 2 none none).whitelist ∧
      s ∉ (mkRunner ["s1", "s2", "s3"] 2 none none).blacklist) ∧
    (∀ s ∈ (choose_background (mkRunner ["s1", "s2", "s3"] 2 none none) ["s1"]
      (fun l n => l.take n) none none).2,
      s ∈ (mkRunner ["s1", "s2", "s3"] 2 none none).whitelist ∧
      s ∉ (mkRunner ["s1", "s2", "s3"] 2 none none).blacklist) ∧
    (choose_background (mkRunner ["s1", "s2", "s3"] 2 none none) ["s1"]
      (fun l n => l.take n) none none).2.length ≤
      (mkRunner ["s1", "s2", "s3"] 2 none none).n_background ∧
    (choose_background (mkRunner ["s1", "s2", "s3"] 2 none none) ["s1"]
      (fun l n => l.take n) none none).2.Nodup ∧
    default_n_background = 160 :=
  choose_background_invariants (mkRunner ["s1", "s2", "s3"] 2 none none) ["s1"]
    (fun l n => l.take n) (fun l n h => take_pick_spec l n h) (by decide)

/-! ## Claim C7: the enrichment statistic -/

theorem lookupCount_cons_of_eq (r : String × Nat) (rest : List (String × Nat))
    (s : String) (h : r.1 = s) : lookupCount (r :: rest) s = r.2 := by
  unfold lookupCount
  rw [List.find?_cons_of_pos _ (by simpa using h)]

theorem lookupCount_cons_of_ne (r : String × Nat) (rest : List (String × Nat))
    (s : String) (h : r.1 ≠ s) : lookupCount (r :: rest) s = lookupCount rest s := by
  unfold lookupCount
  rw [List.find?_cons_of_neg _ (by simpa using h)]

theorem lookupCount_filter (counts : List (String × Nat)) (ss : List String)
    (s : String) (hs : s ∈ ss) :
    lookupCount (counts.filter (fun r => decide (r.1 ∈ ss))) s =
      lookupCount counts s := by
  induction counts with
  | nil => rfl
  | cons r rest ih =>
    by_cases hr : r.1 ∈ ss
    · rw [List.filter_cons_of_pos (by simpa using hr)]
      by_cases heq : r.1 = s
      · rw [lookupCount_cons_of_eq r _ s heq, lookupCount_cons_of_eq r rest s heq]
      · rw [lookupCount_cons_of_ne r _ s heq, lookupCount_cons_of_ne r rest s heq]
        exact ih
    · rw [List.filter_cons_of_neg (by simpa using hr)]
      have hne : r.1 ≠ s := fun h => hr (h ▸ hs)
      rw [lookupCount_cons_of_ne r rest s hne]
      exact ih

theorem reidx_filter_called (samples background : List String) (f : String → Nat)
    (hdisj : ∀ s ∈ background, s ∉ samples) :
    ((samples ++ background).map (fun s => (s, f s))).filter
        (fun r => decide (r.1 ∈ samples)) =
      samples.map (fun s => (s, f s)) := by
  rw [List.map_append, List.filter_append]
  have h1 : (samples.map (fun s => (s, f s))).filter
      (fun r => decide (r.1 ∈ samples)) = samples.map (fun s => (s, f s)) := by
    apply List.filter_eq_self.mpr
    intro a ha
    rcases List.mem_map.mp ha with ⟨s, hs, rfl⟩
    simpa using hs
  have h2 : (background.map (fun s => (s, f s))).filter
      (fun r => decide (r.1 ∈ samples)) = [] := by
    apply List.filter_eq_nil_iff.mpr
    intro a ha
    rcases List.mem_map.mp ha with ⟨s, hs, rfl⟩
    simpa using hdisj s hs
  rw [h1, h2, List.append_nil]

theorem reidx_filter_bg (samples background : List String) (f : String → Nat)
    (hdisj : ∀ s ∈ background, s ∉ samples) :
    ((samples ++ background).map (fun s => (s, f s))).filter
        (fun r => decide (r.1 ∉ samples)) =
      background.map (fun s => (s, f s)) := by
  rw [List.map_append, List.filter_append]
  have h1 : (samples.map (fun s => (s, f s))).filter
      (fun r => decide (r.1 ∉ samples)) = [] := by
    apply List.filter_eq_nil_iff.mpr
    intro a ha
    rcases List.mem_map.mp ha with ⟨s, hs, rfl⟩
    simpa using hs
  have h2 : (background.map (fun s => (s, f s))).filter
      (fun r => decide (r.1 ∉ samples)) = background.map (fun s => (s, f s)) := by
    apply List.filter_eq_self.mpr
    intro a ha
    rcases List.mem_map.mp ha with ⟨s, hs, rfl⟩
    simpa using hdisj s hs
  rw [h1, h2, List.nil_append]

/-- C7: on a table that still has rows after restriction, `PESRTest.test`
compares the called and background samples by the median of their
per-sample read counts (absent samples counting 0), and its reported
`log_pval` is the absolute base-10 logarithm of the Poisson CDF of the
background median evaluated at rate the called median. -/
theorem pesr_test_medians (counts : List (String × Nat))
    (samples background : List String)
    (hne : counts.filter (fun r => decide (r.1 ∈ samples ++ background)) ≠ [])
    (hdisj : ∀ s ∈ background, s ∉ samples) :
    PESRTest_test counts samples background =
      ⟨median (background.map (fun s => (lookupCount counts s : ℚ))),
       median (samples.map (fun s => (lookupCount counts s : ℚ))),
       |Real.logb 10 (poissonCdf
         (median (background.map (fun s => (lookupCount counts s : ℚ))))
         (median (samples.map (fun s => (lookupCount counts s : ℚ)))))|⟩ := by
  simp only [PESRTest_test]
  split
  · rename_i hcond
    exact absurd hcond hne
  · rw [reidx_filter_called samples background _ hdisj,
      reidx_filter_bg samples background _ hdisj,
      List.map_map, List.map_map]
    have hmapS : samples.map ((fun r : String × Nat => (r.2 : ℚ)) ∘
        (fun s => (s, lookupCount
          (counts.filter (fun r => decide (r.1 ∈ samples ++ background))) s))) =
        samples.map (fun s => (lookupCount counts s : ℚ)) := by
      apply List.map_congr_left
      intro s hs
      simp only [Function.comp]
      rw [lookupCount_filter counts (samples ++ background) s
        (List.mem_append_left _ hs)]
    have hmapB : background.map ((fun r : String × Nat => (r.2 : ℚ)) ∘
        (fun s => (s, lookupCount
          (counts.filter (fun r => decide (r.1 ∈ samples ++ background))) s))) =
        background.map (fun s => (lookupCount counts s : ℚ)) := by
      apply List.map_congr_left
      intro s hs
      simp only [Function.comp]
      rw [lookupCount_filter counts (samples ++ background) s
        (List.mem_append_right _ hs)]
    rw [hmapS, hmapB]

/-- Witness for C7: two called and two background samples, one of each
absent from the table. -/
theorem pesr_test_medians_witness :
    PESRTest_test [("a", 7), ("b", 2), ("x", 9)] ["a", "c"] ["b", "d"] =
      ⟨median (["b", "d"].map
         (fun s => (lookupCount [("a", 7), ("b", 2), ("x", 9)] s : ℚ))),
       median (["a", "c"].map
         (fun s => (lookupCount [("a", 7), ("b", 2), ("x", 9)] s : ℚ))),
       |Real.logb 10 (poissonCdf
         (median (["b", "d"].map
           (fun s => (lookupCount [("a", 7), ("b", 2), ("x", 9)] s : ℚ))))
         (median (["a", "c"].map
           (fun s => (lookupCount [("a", 7), ("b", 2), ("x", 9)] s : ℚ)))))|⟩ :=
  pesr_test_medians [("a", 7), ("b", 2), ("x", 9)] ["a", "c"] ["b", "d"]
    (by decide) (by decide)
